import Mathlib

/-!
Shallow embedding of `scripts/visualize_cpu.py`.

The script loads CPU-utilization samples from CSV files, computes summary
statistics, renders an ASCII chart, a statistics table and an insight block.
Python floats are modelled as exact rationals (`ℚ`); Python `int(q)` is
truncation toward zero; the fallible CSV-cell parse is modelled as an
`Option`-valued decimal parser.  String formatting (the `f"..."` presentation
layer) is not modelled: the embedded renderer returns the numeric content of
every line (grid cells, axis-label values) rather than the formatted text.
-/

namespace VisualizeCpu

/-- Python `int()` applied to a real (here rational) number: truncation toward
zero. -/
def pyInt (q : ℚ) : ℤ := if q < 0 then -⌊-q⌋ else ⌊q⌋

/-- A CSV data row as the loader sees it.  `csv.DictReader` yields a dict per
row; the script only ever reads the `cpu_percent` key, so a row is modelled by
that single cell: `none` when the column is missing (Python `KeyError` on
`row['cpu_percent']`), `some s` when the cell holds the raw string `s`. -/
structure Row where
  cpu_percent : Option String
deriving DecidableEq

/-- Numeric value of a digit string (most significant first). -/
def digitsVal (l : List Char) : ℕ := l.foldl (fun a c => a * 10 + (c.toNat - 48)) 0

/-- Split a character list at every `'.'` (the chunks between dots, in
order; a list with no dot yields one chunk). -/
def splitDots : List Char → List (List Char)
  | [] => [[]]
  | c :: rest =>
    let r := splitDots rest
    if c = '.' then [] :: r
    else
      match r with
      | h :: t => (c :: h) :: t
      | [] => [[c]]

/-- Parse an unsigned decimal literal: digits, or digits `.` digits (either
side possibly empty but not both). -/
def parseUnsigned (l : List Char) : Option ℚ :=
  match splitDots l with
  | [ip] =>
    if ip ≠ [] ∧ ip.all Char.isDigit then some ((digitsVal ip : ℚ)) else none
  | [ip, fp] =>
    if (ip ≠ [] ∨ fp ≠ []) ∧ ip.all Char.isDigit ∧ fp.all Char.isDigit then
      some ((digitsVal ip : ℚ) + (digitsVal fp : ℚ) / (10 : ℚ) ^ fp.length)
    else none
  | _ => none

/-- Python `float(s)` restricted to plain decimal literals (optional sign,
digits, optional fractional part), the only shapes occurring in the CSV data;
any other string fails (`ValueError`), which the loader turns into a skip. -/
def parseFloat (s : String) : Option ℚ :=
  match s.toList with
  | '-' :: rest => (parseUnsigned rest).map (fun q => -q)
  | '+' :: rest => parseUnsigned rest
  | l => parseUnsigned l

/-- `load_cpu_data`, the per-row loop: append `float(row['cpu_percent'])`,
skipping the row on `ValueError` (unparseable cell) or `KeyError` (missing
column). -/
def load_cpu_data : List Row → List ℚ
  | [] => []
  | row :: rest =>
    match row.cpu_percent.bind parseFloat with
    | some v => v :: load_cpu_data rest
    | none => load_cpu_data rest

/-- The statistics record returned by `calculate_stats` (a Python dict with
exactly these six keys). -/
structure Stats where
  min : ℚ
  max : ℚ
  mean : ℚ
  median : ℚ
  p95 : ℚ
  p99 : ℚ
deriving DecidableEq

/-- The index `n // 2` used for the median. -/
def medianIndex (n : ℕ) : ℕ := n / 2

/-- The index `int(n * 0.95)`: with exact arithmetic, `⌊n · 95/100⌋`. -/
def p95Index (n : ℕ) : ℕ := n * 95 / 100

/-- The index `int(n * 0.99)`: with exact arithmetic, `⌊n · 99/100⌋`. -/
def p99Index (n : ℕ) : ℕ := n * 99 / 100

/-- `calculate_stats`: `{}` (here `none`) on empty input, otherwise the six
order statistics taken from `sorted(data)`.  `sorted_data[-1]` is the last
element, i.e. index `n - 1`. -/
def calculate_stats (data : List ℚ) : Option Stats :=
  if data = [] then none
  else
    let sorted_data := data.insertionSort (· ≤ ·)
    let n := sorted_data.length
    some {
      min := sorted_data.getD 0 0
      max := sorted_data.getD (n - 1) 0
      mean := data.sum / (n : ℚ)
      median := sorted_data.getD (medianIndex n) 0
      p95 := sorted_data.getD (p95Index n) 0
      p99 := if 1 < n then sorted_data.getD (p99Index n) 0 else sorted_data.getD (n - 1) 0 }

/-! ## Chart renderer (`generate_ascii_chart`) -/

/-- The fixed glyph palette `symbols = ['█', '▓', '░']`. -/
def symbols : List Char := ['█', '▓', '░']

/-- Python `min(list)`: undefined (`ValueError`) on the empty list, otherwise
a left fold of binary `min` over the first element. -/
def listMin : List ℚ → Option ℚ
  | [] => none
  | a :: as => some (as.foldl min a)

/-- Python `max(list)`, analogously. -/
def listMax : List ℚ → Option ℚ
  | [] => none
  | a :: as => some (as.foldl max a)

/-- Python `max` over a list of natural numbers (used for
`max(len(dataset) for dataset in datasets)`). -/
def listMaxNat : List ℕ → Option ℕ
  | [] => none
  | a :: as => some (as.foldl max a)

/-- `all_data`: every sample of every dataset, flattened in order. -/
def allData (datasets : List (List ℚ)) : List ℚ := datasets.flatten

/-- `global_min = min(all_data)`; the `getD 0` default is never consulted when
`all_data` is non-empty (in Python the empty case raises `ValueError`). -/
def globalMinOf (datasets : List (List ℚ)) : ℚ := (listMin (allData datasets)).getD 0

/-- `global_max = max(all_data)`. -/
def globalMaxOf (datasets : List (List ℚ)) : ℚ := (listMax (allData datasets)).getD 0

/-- `value_range = global_max - global_min`, overridden to `1` when zero
(`if value_range == 0: value_range = 1`). -/
def valueRange (gmin gmax : ℚ) : ℚ :=
  if gmax - gmin = 0 then 1 else gmax - gmin

/-- The grid row for a sample:
`normalized_value = (value - global_min) / value_range` and
`y = int((height - 1) - (normalized_value * (height - 1)))`. -/
def plotY (gmin vrange : ℚ) (height : ℕ) (value : ℚ) : ℤ :=
  let normalized_value := (value - gmin) / vrange
  pyInt (((height : ℚ) - 1) - normalized_value * ((height : ℚ) - 1))

/-- The source index sampled for output column `x`:
`step = len(data) / width if len(data) > width else 1` and
`idx = int(x * step) if step > 1 else x`; with exact arithmetic
`int(x * (len/width)) = x * len / width` (ℕ-division).  (For `width = 0`
Python would raise `ZeroDivisionError`; the claims keep `width > 0`.) -/
def sampleIdx (len width x : ℕ) : ℕ :=
  if width < len then x * len / width else x

/-- The chart grid: `height` rows of `width` characters. -/
abbrev Grid := List (List Char)

/-- The blank cell character `' '`. -/
def blankChar : Char := ' '

/-- `grid[y][x]`, with the blank as out-of-range default (the code only
indexes in range, guarded by `0 <= y < height` and `x < width`). -/
def cellGet (g : Grid) (y x : ℕ) : Char := (g.getD y []).getD x blankChar

/-- `grid[y][x] = c`. -/
def cellSet (g : Grid) (y x : ℕ) (c : Char) : Grid :=
  g.set y ((g.getD y []).set x c)

/-- `grid = [[' ' for _ in range(width)] for _ in range(height)]`. -/
def mkGrid (width height : ℕ) : Grid :=
  List.replicate height (List.replicate width blankChar)

/-- The guarded write of one sample: `if 0 <= y < height` and the target cell
is blank, write the glyph, else leave the grid unchanged. -/
def writeCell (height : ℕ) (g : Grid) (y : ℤ) (x : ℕ) (c : Char) : Grid :=
  if 0 ≤ y ∧ y < (height : ℤ) then
    if cellGet g y.toNat x = blankChar then cellSet g y.toNat x c else g
  else g

/-- The inner plotting loop over the columns `xs` (Python:
`for x in range(min(width, len(data)))`): compute the sampled index, `break`
when it falls past the end of the data, compute the row, and write the glyph
only when the target cell is blank. -/
def plotLoop (data : List ℚ) (symbol : Char) (gmin vrange : ℚ)
    (width height : ℕ) : Grid → List ℕ → Grid
  | g, [] => g
  | g, x :: xs =>
    if data.length ≤ sampleIdx data.length width x then g
    else
      plotLoop data symbol gmin vrange width height
        (writeCell height g
          (plotY gmin vrange height (data.getD (sampleIdx data.length width x) 0))
          x symbol) xs

/-- Plot one dataset onto the grid. -/
def plotOne (g : Grid) (symbol : Char) (data : List ℚ) (gmin vrange : ℚ)
    (width height : ℕ) : Grid :=
  plotLoop data symbol gmin vrange width height g (List.range (min width data.length))

/-- Plot every dataset in order; dataset `i` uses glyph
`symbols[i % len(symbols)]`. -/
def plotAll (g : Grid) (i : ℕ) (datasets : List (List ℚ)) (gmin vrange : ℚ)
    (width height : ℕ) : Grid :=
  match datasets with
  | [] => g
  | d :: ds =>
    plotAll (plotOne g (symbols.getD (i % symbols.length) blankChar) d gmin vrange width height)
      (i + 1) ds gmin vrange width height

/-- The Y-axis label value printed next to grid row `i`:
`global_max` for the top row, `global_min` for the bottom row, otherwise
`global_max - (i / (height - 1)) * value_range`. -/
def yLabel (gmin gmax vrange : ℚ) (height i : ℕ) : ℚ :=
  if i = 0 then gmax
  else if i = height - 1 then gmin
  else gmax - ((i : ℚ) / ((height : ℚ) - 1)) * vrange

/-- The numeric content of a rendered chart: global extrema, the plotted
grid, the Y-axis label value of each row, and the X-axis footer count
`max_len` (the header/legend strings are pure presentation). -/
structure Chart where
  gmin : ℚ
  gmax : ℚ
  grid : Grid
  yLabels : List ℚ
  maxLen : ℕ
deriving DecidableEq

/-- Result of `generate_ascii_chart`: the early return `"No data"` or a chart. -/
inductive ChartResult where
  | noData
  | chart (c : Chart)
deriving DecidableEq

/-- `generate_ascii_chart(datasets, labels, width=80, height=20)`: return
`"No data"` for an empty dataset list, otherwise compute the global extrema,
the (possibly overridden) value range, plot every dataset first-writer-wins,
and label the rows.  `labels` only feeds the legend strings, which are
presentation and carry no numeric content. -/
def generate_ascii_chart (datasets : List (List ℚ)) (labels : List String)
    (width : ℕ := 80) (height : ℕ := 20) : ChartResult :=
  if datasets = [] then .noData
  else
    let global_min := globalMinOf datasets
    let global_max := globalMaxOf datasets
    let value_range := valueRange global_min global_max
    let _legendCount := labels.length
    .chart {
      gmin := global_min
      gmax := global_max
      grid := plotAll (mkGrid width height) 0 datasets global_min value_range width height
      yLabels := (List.range height).map (yLabel global_min global_max value_range height)
      maxLen := (listMaxNat (datasets.map List.length)).getD 0 }

/-- The Y-axis label value of row `i` of a chart result (`0` for `"No data"`,
which prints no rows). -/
def chartYLabel (r : ChartResult) (i : ℕ) : ℚ :=
  match r with
  | .noData => 0
  | .chart c => c.yLabels.getD i 0

/-- The global maximum recorded in a chart result. -/
def chartGmax (r : ChartResult) : ℚ :=
  match r with
  | .noData => 0
  | .chart c => c.gmax

/-- The global minimum recorded in a chart result. -/
def chartGmin (r : ChartResult) : ℚ :=
  match r with
  | .noData => 0
  | .chart c => c.gmin

/-! ## Insight generator (`generate_comparison_insights`) -/

/-- The numeric content of the insight block: the (label, mean) pairs named
lowest/highest average, the (label, max) pairs named lowest/highest peak, and
the per-dataset headroom list. -/
structure Insights where
  lowestAvg : String × ℚ
  highestAvg : String × ℚ
  lowestPeak : String × ℚ
  highestPeak : String × ℚ
  headrooms : List (String × ℚ)
deriving DecidableEq

/-- Junk default for indexing an empty sorted pair list (Python would raise
`IndexError`; the orchestrator only calls the generator with ≥ 1 dataset). -/
def defaultPair : String × Stats := ("", ⟨0, 0, 0, 0, 0, 0⟩)

/-- `generate_comparison_insights(stats_list, labels)`:
`by_mean = sorted(zip(labels, stats_list), key=mean)` — Python `sorted` is
stable, which insertion sort with `≤` on the key reproduces exactly —
`by_peak` likewise by `max`; report `by_mean[0]`, `by_mean[-1]`,
`by_peak[0]`, `by_peak[-1]`, and `headroom = 400 - mean` per dataset. -/
def generate_comparison_insights (stats_list : List Stats) (labels : List String) : Insights :=
  let pairs := labels.zip stats_list
  let by_mean := pairs.insertionSort (fun a b => a.2.mean ≤ b.2.mean)
  let by_peak := pairs.insertionSort (fun a b => a.2.max ≤ b.2.max)
  { lowestAvg := ((by_mean.headD defaultPair).1, (by_mean.headD defaultPair).2.mean)
    highestAvg := ((by_mean.getLastD defaultPair).1, (by_mean.getLastD defaultPair).2.mean)
    lowestPeak := ((by_peak.headD defaultPair).1, (by_peak.headD defaultPair).2.max)
    highestPeak := ((by_peak.getLastD defaultPair).1, (by_peak.getLastD defaultPair).2.max)
    headrooms := pairs.map (fun p => (p.1, 400 - p.2.mean)) }

/-! ## Orchestrator (`main`) -/

/-- The filesystem, abstracted: a map from path to the rows of the file,
`none` when the file does not exist. -/
abbrev FS := String → Option (List Row)

/-- `load_cpu_data(filename)` including the `open` call: a missing file is a
`FileNotFoundError` propagated to the caller (the loader has no handler), an
existing file is parsed row by row. -/
def load_cpu_data_fs (fs : FS) (filename : String) : Except Unit (List ℚ) :=
  match fs filename with
  | none => .error ()
  | some rows => .ok (load_cpu_data rows)

/-- The notices `main` prints while loading, in print order. -/
inductive Notice where
  | loaded (count : ℕ) (label : String)
  | noDataIn (label : String)
  | fileNotFound (filename : String)
deriving DecidableEq

/-- The accumulator state of `main`'s loading loop: `datasets`, `labels`,
`stats_list` (each appended to on a successful non-empty load, in input
order) plus the printed notices. -/
structure RunState where
  datasets : List (List ℚ)
  labels : List String
  stats_list : List Stats
  notices : List Notice
deriving DecidableEq

/-- `main`'s loading loop over the `tests` table: try to load each file;
on `FileNotFoundError` print a skip notice and continue; on empty data print
a no-data notice and continue; otherwise retain dataset, label and
statistics. -/
def processTests (fs : FS) : List (String × String) → RunState
  | [] => ⟨[], [], [], []⟩
  | (filename, label) :: rest =>
    let r := processTests fs rest
    match fs filename with
    | none => ⟨r.datasets, r.labels, r.stats_list, .fileNotFound filename :: r.notices⟩
    | some rows =>
      let data := load_cpu_data rows
      if data = [] then ⟨r.datasets, r.labels, r.stats_list, .noDataIn label :: r.notices⟩
      else
        ⟨data :: r.datasets, label :: r.labels,
          (calculate_stats data).getD ⟨0, 0, 0, 0, 0, 0⟩ :: r.stats_list,
          .loaded data.length label :: r.notices⟩

/-- `main`'s exit status: `1` when no dataset loaded, else `0`. -/
def mainExit (fs : FS) (tests : List (String × String)) : ℕ :=
  if (processTests fs tests).datasets = [] then 1 else 0

/-! ## Helper lemmas -/

/-- `sorted(data)` is the unique ascending reordering of `data`. -/
theorem insertionSort_eq_of_sorted_perm (data s : List ℚ)
    (hs : s.Sorted (· ≤ ·)) (hp : s.Perm data) :
    data.insertionSort (· ≤ ·) = s :=
  List.eq_of_perm_of_sorted ((List.perm_insertionSort _ data).trans hp.symm)
    (List.sorted_insertionSort _ data) hs

/-- In a sorted list, earlier entries are at most later entries (via `getD`). -/
theorem sorted_getD_le_getD (s : List ℚ) (hs : s.Sorted (· ≤ ·)) (i j : ℕ)
    (hij : i ≤ j) (hj : j < s.length) : s.getD i 0 ≤ s.getD j 0 := by
  have hi : i < s.length := lt_of_le_of_lt hij hj
  rw [List.getD_eq_getElem _ _ hi, List.getD_eq_getElem _ _ hj]
  exact hs.rel_get_of_le (a := ⟨i, hi⟩) (b := ⟨j, hj⟩) hij

/-- An in-range `getD` entry is a member of the list. -/
theorem getD_mem (s : List ℚ) (i : ℕ) (h : i < s.length) : s.getD i 0 ∈ s := by
  rw [List.getD_eq_getElem _ _ h]
  exact List.getElem_mem h

/-- In a sorted list, the first entry bounds every member from below. -/
theorem sorted_getD_zero_le (s : List ℚ) (hs : s.Sorted (· ≤ ·)) (x : ℚ)
    (hx : x ∈ s) : s.getD 0 0 ≤ x := by
  obtain ⟨i, hi, rfl⟩ := List.getElem_of_mem hx
  rw [← List.getD_eq_getElem s 0 hi]
  exact sorted_getD_le_getD s hs 0 i (Nat.zero_le i) hi

/-- In a sorted list, the last entry bounds every member from above. -/
theorem sorted_le_getD_last (s : List ℚ) (hs : s.Sorted (· ≤ ·)) (x : ℚ)
    (hx : x ∈ s) : x ≤ s.getD (s.length - 1) 0 := by
  obtain ⟨i, hi, rfl⟩ := List.getElem_of_mem hx
  rw [← List.getD_eq_getElem s 0 hi]
  exact sorted_getD_le_getD s hs i (s.length - 1) (by omega) (by omega)

/-- `headD` is the entry at index `0`. -/
theorem headD_eq_getD_zero (s : List ℚ) : s.headD 0 = s.getD 0 0 := by
  cases s <;> rfl

/-- `getLastD` is the entry at index `length - 1`. -/
theorem getLastD_eq_getD_last (s : List ℚ) : s.getLastD 0 = s.getD (s.length - 1) 0 := by
  rw [List.getLastD_eq_getLast?, List.getLast?_eq_getElem?, List.getD_eq_getElem?_getD]

/-! ## Claim theorems -/

/-- C1: for every non-empty sequence, `calculate_stats` returns the record
whose `min`/`max` are the first/last entries of the ascending sorted
sequence, `mean` is the arithmetic average of the original values, `median`
is the sorted entry at `⌊n/2⌋`, `p95` the sorted entry at `⌊n·0.95⌋`, and
`p99` the sorted entry at `⌊n·0.99⌋` for `n > 1` and the last entry (the
max) for `n = 1`; in particular `[10, 20, 30, 40]` yields `min=10, max=40,
mean=25, median=30, p95=40, p99=40`. -/
theorem calculate_stats_spec (data s : List ℚ) (hdata : data ≠ [])
    (hsort : s.Sorted (· ≤ ·)) (hperm : s.Perm data) :
    calculate_stats data = some {
      min := s.headD 0
      max := s.getLastD 0
      mean := data.sum / (data.length : ℚ)
      median := s.getD (medianIndex s.length) 0
      p95 := s.getD (p95Index s.length) 0
      p99 := if 1 < s.length then s.getD (p99Index s.length) 0 else s.getLastD 0 } ∧
    calculate_stats [10, 20, 30, 40] = some ⟨10, 40, 25, 30, 40, 40⟩ := by
  constructor
  · rw [calculate_stats, if_neg hdata, insertionSort_eq_of_sorted_perm data s hsort hperm]
    rw [headD_eq_getD_zero, getLastD_eq_getD_last]
    simp only [hperm.length_eq]
  · simp +decide [calculate_stats, List.insertionSort, List.orderedInsert,
      medianIndex, p95Index, p99Index]
    norm_num

/-- Witness for C1 at `data = [10, 20, 30, 40]` with its sorted reordering. -/
theorem calculate_stats_spec_witness :
    calculate_stats [10, 20, 30, 40] = some ⟨10, 40, 25, 30, 40, 40⟩ :=
  (calculate_stats_spec [10, 20, 30, 40] [10, 20, 30, 40] (by decide)
    (by decide) (by decide)).2

/-- C8: for every non-empty sequence of length `n`, the indices
`⌊n·0.95⌋`, `⌊n·0.99⌋` and `⌊n/2⌋` are strictly below `n`, so the
calculator's indexing stays in range and it always returns a record. -/
theorem stats_indices_in_range (data : List ℚ) (h : data ≠ []) :
    (calculate_stats data).isSome = true ∧
    medianIndex data.length < data.length ∧
    p95Index data.length < data.length ∧
    p99Index data.length < data.length := by
  have hn : 0 < data.length := List.length_pos.mpr h
  refine ⟨by simp [calculate_stats, h], ?_, ?_, ?_⟩
  · unfold medianIndex; omega
  · unfold p95Index; omega
  · unfold p99Index; omega

/-- C2: every statistic returned by `calculate_stats` lies between `min` and
`max`, and on an all-identical sequence every statistic equals the common
value. -/
theorem stats_bounded (data : List ℚ) (st : Stats)
    (h : calculate_stats data = some st) :
    (st.min ≤ st.median ∧ st.median ≤ st.max ∧
     st.min ≤ st.mean ∧ st.mean ≤ st.max ∧
     st.min ≤ st.p95 ∧ st.p95 ≤ st.max ∧
     st.min ≤ st.p99 ∧ st.p99 ≤ st.max) ∧
    ∀ v : ℚ, (∀ x ∈ data, x = v) → st = ⟨v, v, v, v, v, v⟩ := by
  by_cases hd : data = []
  · simp [calculate_stats, hd] at h
  rw [calculate_stats, if_neg hd] at h
  set s := data.insertionSort (· ≤ ·) with hs_def
  have hsort : s.Sorted (· ≤ ·) := List.sorted_insertionSort _ data
  have hperm : s.Perm data := List.perm_insertionSort _ data
  have hlen : s.length = data.length := hperm.length_eq
  have hn : 0 < s.length := by
    rw [hlen]; exact List.length_pos.mpr hd
  have hst := (Option.some.inj h).symm
  subst hst
  have hmono : ∀ i j : ℕ, i ≤ j → j < s.length → s.getD i 0 ≤ s.getD j 0 :=
    fun i j => sorted_getD_le_getD s hsort i j
  have hlo : ∀ x ∈ data, s.getD 0 0 ≤ x := fun x hx =>
    sorted_getD_zero_le s hsort x (hperm.mem_iff.mpr hx)
  have hhi : ∀ x ∈ data, x ≤ s.getD (s.length - 1) 0 := fun x hx =>
    sorted_le_getD_last s hsort x (hperm.mem_iff.mpr hx)
  have hnq : (0 : ℚ) < (s.length : ℚ) := by exact_mod_cast hn
  constructor
  · refine ⟨?_, ?_, ?_, ?_, ?_, ?_, ?_, ?_⟩
    · exact hmono 0 (medianIndex s.length) (Nat.zero_le _) (by unfold medianIndex; omega)
    · exact hmono (medianIndex s.length) (s.length - 1) (by unfold medianIndex; omega) (by omega)
    · show s.getD 0 0 ≤ data.sum / (s.length : ℚ)
      rw [le_div_iff₀ hnq]
      have := List.card_nsmul_le_sum data (s.getD 0 0) hlo
      rw [nsmul_eq_mul, ← hlen] at this
      linarith
    · show data.sum / (s.length : ℚ) ≤ s.getD (s.length - 1) 0
      rw [div_le_iff₀ hnq]
      have := List.sum_le_card_nsmul data (s.getD (s.length - 1) 0) hhi
      rw [nsmul_eq_mul, ← hlen] at this
      linarith
    · exact hmono 0 (p95Index s.length) (Nat.zero_le _) (by unfold p95Index; omega)
    · exact hmono (p95Index s.length) (s.length - 1) (by unfold p95Index; omega) (by omega)
    · show s.getD 0 0 ≤ if 1 < s.length then s.getD (p99Index s.length) 0 else s.getD (s.length - 1) 0
      split
      · exact hmono 0 (p99Index s.length) (Nat.zero_le _) (by unfold p99Index; omega)
      · exact hmono 0 (s.length - 1) (Nat.zero_le _) (by omega)
    · show (if 1 < s.length then s.getD (p99Index s.length) 0 else s.getD (s.length - 1) 0) ≤
        s.getD (s.length - 1) 0
      split
      · exact hmono (p99Index s.length) (s.length - 1) (by unfold p99Index; omega) (by omega)
      · exact le_refl _
  · intro v hv
    have hvs : ∀ x ∈ s, x = v := fun x hx => hv x (hperm.mem_iff.mp hx)
    have hgd : ∀ i : ℕ, i < s.length → s.getD i 0 = v := fun i hi =>
      hvs _ (getD_mem s i hi)
    have hsum : data.sum = data.length • v := List.sum_eq_card_nsmul data v hv
    have hmean : data.sum / (s.length : ℚ) = v := by
      rw [hsum, nsmul_eq_mul, ← hlen, mul_comm, mul_div_assoc, div_self (ne_of_gt hnq), mul_one]
    simp only [Stats.mk.injEq]
    refine ⟨hgd 0 hn, hgd _ (by omega), hmean, hgd _ (by unfold medianIndex; omega),
      hgd _ (by unfold p95Index; omega), ?_⟩
    split
    · exact hgd _ (by unfold p99Index; omega)
    · exact hgd _ (by omega)

/-- Witness for C2 at `data = [10, 20, 30, 40]`. -/
theorem stats_bounded_witness :
    let st : Stats := ⟨10, 40, 25, 30, 40, 40⟩
    (st.min ≤ st.median ∧ st.median ≤ st.max ∧
     st.min ≤ st.mean ∧ st.mean ≤ st.max ∧
     st.min ≤ st.p95 ∧ st.p95 ≤ st.max ∧
     st.min ≤ st.p99 ∧ st.p99 ≤ st.max) :=
  (stats_bounded [10, 20, 30, 40] ⟨10, 40, 25, 30, 40, 40⟩
    (by simp +decide [calculate_stats, List.insertionSort, List.orderedInsert,
      medianIndex, p95Index, p99Index]; norm_num)).1

/-- Witness for C8 at `data = [10]`. -/
theorem stats_indices_in_range_witness :
    (calculate_stats [(10 : ℚ)]).isSome = true ∧
    medianIndex 1 < 1 ∧ p95Index 1 < 1 ∧ p99Index 1 < 1 := by
  have h := stats_indices_in_range [(10 : ℚ)] (by decide)
  simpa using h

/-- C3: the loader returns exactly the `cpu_percent` values that parse, in
row order; a row whose cell is missing or unparseable is skipped without
affecting the rest of the result; the rows `"12.5"`, `"bad"`, `"30.0"`
yield `[12.5, 30.0]`. -/
theorem load_cpu_data_spec :
    (∀ rows : List Row, load_cpu_data rows =
      rows.filterMap (fun r => r.cpu_percent.bind parseFloat)) ∧
    (∀ (pre post : List Row) (r : Row), r.cpu_percent.bind parseFloat = none →
      load_cpu_data (pre ++ r :: post) = load_cpu_data (pre ++ post)) ∧
    load_cpu_data [⟨some "12.5"⟩, ⟨some "bad"⟩, ⟨some "30.0"⟩] = [25/2, 30] := by
  have hfm : ∀ rows : List Row, load_cpu_data rows =
      rows.filterMap (fun r => r.cpu_percent.bind parseFloat) := by
    intro rows
    induction rows with
    | nil => rfl
    | cons r rest ih =>
      rw [load_cpu_data, List.filterMap_cons]
      cases r.cpu_percent.bind parseFloat <;> simp [ih]
  refine ⟨hfm, ?_, ?_⟩
  · intro pre post r hr
    rw [hfm, hfm, List.filterMap_append, List.filterMap_append, List.filterMap_cons, hr]
  · simp +decide [load_cpu_data, parseFloat, parseUnsigned, splitDots, digitsVal]
    norm_num

/-- Witness for C3's skip clause: the `"bad"` row is dropped without
affecting the `"30.0"` row. -/
theorem load_cpu_data_spec_witness :
    load_cpu_data [Row.mk (some "bad"), Row.mk (some "30.0")] =
      load_cpu_data [Row.mk (some "30.0")] :=
  load_cpu_data_spec.2.1 [] [⟨some "30.0"⟩] ⟨some "bad"⟩ (by decide)

/-- C10: called with an empty list of datasets, the chart renderer returns
the `"No data"` result and the global extrema over all samples (undefined on
an empty collection) are never consulted. -/
theorem chart_noData (labels : List String) (w h : ℕ) :
    generate_ascii_chart [] labels w h = ChartResult.noData := by
  rfl

/-- `main`'s loading loop distributes over appending of the tests table:
every table entry contributes its datasets, labels, statistics and notices
independently, in order. -/
theorem processTests_append (fs : FS) (l₁ l₂ : List (String × String)) :
    processTests fs (l₁ ++ l₂) =
      ⟨(processTests fs l₁).datasets ++ (processTests fs l₂).datasets,
       (processTests fs l₁).labels ++ (processTests fs l₂).labels,
       (processTests fs l₁).stats_list ++ (processTests fs l₂).stats_list,
       (processTests fs l₁).notices ++ (processTests fs l₂).notices⟩ := by
  induction l₁ with
  | nil => rfl
  | cons t rest ih =>
    obtain ⟨filename, label⟩ := t
    show processTests fs ((filename, label) :: (rest ++ l₂)) = _
    rw [processTests, ih, processTests]
    cases fs filename with
    | none => rfl
    | some rows =>
      by_cases hdata : load_cpu_data rows = [] <;> simp [hdata]

/-- C4: a missing file makes the loader fail with the FileNotFound condition
(not recovered inside the loader); `main` catches it, records a skip notice
for that entry, and processes the remaining entries exactly as it would
without the missing one, so already-loaded datasets are unaffected. -/
theorem fileNotFound_skipped (fs : FS) (f : String) (hf : fs f = none) :
    load_cpu_data_fs fs f = .error () ∧
    ∀ (pre post : List (String × String)) (lab : String),
      (processTests fs (pre ++ (f, lab) :: post)).datasets =
        (processTests fs (pre ++ post)).datasets ∧
      (processTests fs (pre ++ (f, lab) :: post)).labels =
        (processTests fs (pre ++ post)).labels ∧
      (processTests fs (pre ++ (f, lab) :: post)).stats_list =
        (processTests fs (pre ++ post)).stats_list ∧
      (processTests fs (pre ++ (f, lab) :: post)).notices =
        (processTests fs pre).notices ++
          Notice.fileNotFound f :: (processTests fs post).notices := by
  constructor
  · unfold load_cpu_data_fs
    rw [hf]
  · intro pre post lab
    have hstep : processTests fs ((f, lab) :: post) =
        ⟨(processTests fs post).datasets, (processTests fs post).labels,
         (processTests fs post).stats_list,
         .fileNotFound f :: (processTests fs post).notices⟩ := by
      rw [processTests, hf]
    rw [processTests_append fs pre ((f, lab) :: post), processTests_append fs pre post, hstep]
    exact ⟨rfl, rfl, rfl, rfl⟩

/-- Witness for C4: a filesystem with no files at all, one good-looking entry
before the missing one. -/
theorem fileNotFound_skipped_witness :
    load_cpu_data_fs (fun _ => none) "missing.csv" = .error () ∧
    (processTests (fun _ => none) [("a", "A"), ("missing.csv", "M")]).notices =
      (processTests (fun _ => none) [("a", "A")]).notices ++
        Notice.fileNotFound "missing.csv" :: (processTests (fun _ => none) []).notices := by
  have h := fileNotFound_skipped (fun _ => none) "missing.csv" rfl
  exact ⟨h.1, (h.2 [("a", "A")] [] "M").2.2.2⟩

/-- A `min`-fold is below its seed and every list element. -/
theorem foldl_min_le (l : List ℚ) (a : ℚ) :
    l.foldl min a ≤ a ∧ ∀ x ∈ l, l.foldl min a ≤ x := by
  induction l generalizing a with
  | nil => exact ⟨le_refl a, by simp⟩
  | cons b t ih =>
    have h := ih (min a b)
    refine ⟨le_trans h.1 (min_le_left a b), ?_⟩
    intro x hx
    rcases List.mem_cons.mp hx with rfl | hx
    · exact le_trans h.1 (min_le_right a x)
    · exact h.2 x hx

/-- A `max`-fold is above its seed and every list element. -/
theorem le_foldl_max (l : List ℚ) (a : ℚ) :
    a ≤ l.foldl max a ∧ ∀ x ∈ l, x ≤ l.foldl max a := by
  induction l generalizing a with
  | nil => exact ⟨le_refl a, by simp⟩
  | cons b t ih =>
    have h := ih (max a b)
    refine ⟨le_trans (le_max_left a b) h.1, ?_⟩
    intro x hx
    rcases List.mem_cons.mp hx with rfl | hx
    · exact le_trans (le_max_right a x) h.1
    · exact h.2 x hx

/-- `global_min` bounds every sample from below. -/
theorem globalMinOf_le (datasets : List (List ℚ)) :
    ∀ x ∈ allData datasets, globalMinOf datasets ≤ x := by
  intro x hx
  unfold globalMinOf listMin
  cases h : allData datasets with
  | nil => rw [h] at hx; cases hx
  | cons a as =>
    rw [h] at hx
    rcases List.mem_cons.mp hx with rfl | hx
    · exact (foldl_min_le as x).1
    · exact (foldl_min_le as a).2 x hx

/-- `global_max` bounds every sample from above. -/
theorem le_globalMaxOf (datasets : List (List ℚ)) :
    ∀ x ∈ allData datasets, x ≤ globalMaxOf datasets := by
  intro x hx
  unfold globalMaxOf listMax
  cases h : allData datasets with
  | nil => rw [h] at hx; cases hx
  | cons a as =>
    rw [h] at hx
    rcases List.mem_cons.mp hx with rfl | hx
    · exact (le_foldl_max as x).1
    · exact (le_foldl_max as a).2 x hx

/-- C6: when the global maximum of all samples equals the global minimum, the
renderer substitutes `1` for the value range (which is therefore never
zero), every plotted sample normalizes to `0`, and every sample lands on the
bottom grid row `height - 1`. -/
theorem zero_range_bottom_row (datasets : List (List ℚ)) (height : ℕ) (v : ℚ)
    (heq : globalMaxOf datasets = globalMinOf datasets)
    (hh : 1 ≤ height) (hv : v ∈ allData datasets) :
    valueRange (globalMinOf datasets) (globalMaxOf datasets) = 1 ∧
    (v - globalMinOf datasets) /
      valueRange (globalMinOf datasets) (globalMaxOf datasets) = 0 ∧
    plotY (globalMinOf datasets)
      (valueRange (globalMinOf datasets) (globalMaxOf datasets)) height v =
      (height : ℤ) - 1 ∧
    ∀ a b : ℚ, valueRange a b ≠ 0 := by
  have hrange : valueRange (globalMinOf datasets) (globalMaxOf datasets) = 1 := by
    unfold valueRange
    rw [if_pos (sub_eq_zero.mpr heq)]
  have hveq : v = globalMinOf datasets :=
    le_antisymm (heq ▸ le_globalMaxOf datasets v hv) (globalMinOf_le datasets v hv)
  have hnorm : (v - globalMinOf datasets) /
      valueRange (globalMinOf datasets) (globalMaxOf datasets) = 0 := by
    rw [hveq, sub_self, zero_div]
  refine ⟨hrange, hnorm, ?_, ?_⟩
  · unfold plotY
    rw [show (v - globalMinOf datasets) /
        valueRange (globalMinOf datasets) (globalMaxOf datasets) = 0 from hnorm]
    show pyInt ((height : ℚ) - 1 - 0 * ((height : ℚ) - 1)) = (height : ℤ) - 1
    rw [zero_mul, sub_zero]
    unfold pyInt
    have h0 : (0 : ℚ) ≤ (height : ℚ) - 1 := by
      have : (1 : ℚ) ≤ (height : ℚ) := by exact_mod_cast hh
      linarith
    rw [if_neg (not_lt.mpr h0)]
    have : ((height : ℚ) - 1) = (((height : ℤ) - 1 : ℤ) : ℚ) := by push_cast; ring
    rw [this, Int.floor_intCast]
  · intro a b
    unfold valueRange
    split
    · exact one_ne_zero
    · next hne0 => exact hne0

/-- Witness for C6 at `datasets = [[0, 0, 0]]`, the spec's zero-range
example, with the default height 20. -/
theorem zero_range_bottom_row_witness :
    valueRange (globalMinOf [[(0 : ℚ), 0, 0]]) (globalMaxOf [[(0 : ℚ), 0, 0]]) = 1 ∧
    plotY (globalMinOf [[(0 : ℚ), 0, 0]])
      (valueRange (globalMinOf [[(0 : ℚ), 0, 0]]) (globalMaxOf [[(0 : ℚ), 0, 0]])) 20 0 =
      (20 : ℤ) - 1 := by
  have h := zero_range_bottom_row [[(0 : ℚ), 0, 0]] 20 0 (by decide) (by decide) (by decide)
  exact ⟨h.1, h.2.2.1⟩

/-- `getD` on a mapped range evaluates the function. -/
theorem getD_map_range (f : ℕ → ℚ) (n i : ℕ) (h : i < n) :
    ((List.range n).map f).getD i 0 = f i := by
  rw [List.getD_eq_getElem _ 0 (by simpa using h), List.getElem_map, List.getElem_range]

/-- C7 counterexample: for the zero-range chart over `[[0, 0, 0]]` (default
80×20), the label of intermediate row 1 is `-1/19`, not the claimed
interpolation `global_max - (1/(height-1))·(global_max - global_min) = 0`:
the code interpolates with the overridden `value_range = 1`. -/
theorem yLabel_interpolation_counterexample :
    chartYLabel (generate_ascii_chart [[(0 : ℚ), 0, 0]] ["Baseline"] 80 20) 1 ≠
      chartGmax (generate_ascii_chart [[(0 : ℚ), 0, 0]] ["Baseline"] 80 20) -
        ((1 : ℚ) / ((20 : ℚ) - 1)) *
          (chartGmax (generate_ascii_chart [[(0 : ℚ), 0, 0]] ["Baseline"] 80 20) -
            chartGmin (generate_ascii_chart [[(0 : ℚ), 0, 0]] ["Baseline"] 80 20)) := by
  simp +decide [chartYLabel, chartGmax, chartGmin, generate_ascii_chart, globalMinOf,
    globalMaxOf, allData, listMin, listMax, valueRange, yLabel, List.getD]
  norm_num

/-- C7 as amended: for a rendered chart (`datasets ≠ []`, `height ≥ 2`), the
top row is labeled with the global maximum, the bottom row with the global
minimum, and an intermediate row `i` with
`global_max - (i/(height-1))·(global_max - global_min)` provided the global
extrema differ; when they coincide the code interpolates with the overridden
range `1`, labeling row `i` with `global_max - i/(height-1)`. -/
theorem yLabel_spec_amended (datasets : List (List ℚ)) (labels : List String)
    (w h i : ℕ) (hne : datasets ≠ []) (hh : 2 ≤ h) (hi : i < h) :
    (i = 0 → chartYLabel (generate_ascii_chart datasets labels w h) i =
      globalMaxOf datasets) ∧
    (i = h - 1 → chartYLabel (generate_ascii_chart datasets labels w h) i =
      globalMinOf datasets) ∧
    (0 < i → i < h - 1 → globalMinOf datasets ≠ globalMaxOf datasets →
      chartYLabel (generate_ascii_chart datasets labels w h) i =
        globalMaxOf datasets - ((i : ℚ) / ((h : ℚ) - 1)) *
          (globalMaxOf datasets - globalMinOf datasets)) ∧
    (0 < i → i < h - 1 → globalMinOf datasets = globalMaxOf datasets →
      chartYLabel (generate_ascii_chart datasets labels w h) i =
        globalMaxOf datasets - ((i : ℚ) / ((h : ℚ) - 1))) := by
  have hch : chartYLabel (generate_ascii_chart datasets labels w h) i =
      yLabel (globalMinOf datasets) (globalMaxOf datasets)
        (valueRange (globalMinOf datasets) (globalMaxOf datasets)) h i := by
    rw [generate_ascii_chart, if_neg hne, chartYLabel]
    exact getD_map_range _ h i hi
  rw [hch]
  unfold yLabel
  refine ⟨?_, ?_, ?_, ?_⟩
  · intro h0
    rw [if_pos h0]
  · intro hlast
    rw [if_neg (by omega), if_pos hlast]
  · intro h0 hmid hneq
    rw [if_neg (by omega), if_neg (by omega)]
    unfold valueRange
    rw [if_neg (sub_ne_zero.mpr (Ne.symm hneq))]
  · intro h0 hmid heq2
    rw [if_neg (by omega), if_neg (by omega)]
    unfold valueRange
    rw [if_pos (sub_eq_zero.mpr heq2.symm), mul_one]

/-- Witness for the amended C7: chart over `[[0], [19]]` (global range 0–19,
default size), intermediate row 1 is labeled `19 - (1/19)·19 = 18`. -/
theorem yLabel_spec_amended_witness :
    chartYLabel (generate_ascii_chart [[(0 : ℚ)], [19]] ["a", "b"] 80 20) 1 =
      globalMaxOf [[(0 : ℚ)], [19]] - ((1 : ℚ) / ((20 : ℚ) - 1)) *
        (globalMaxOf [[(0 : ℚ)], [19]] - globalMinOf [[(0 : ℚ)], [19]]) :=
  (yLabel_spec_amended [[(0 : ℚ)], [19]] ["a", "b"] 80 20 1 (by decide) (by decide)
    (by decide)).2.2.1 (by decide) (by decide) (by decide)

/-- `getD` after `set` at a different index is unchanged. -/
theorem getD_set_ne {α : Type} (l : List α) (i j : ℕ) (a d : α) (h : i ≠ j) :
    (l.set i a).getD j d = l.getD j d := by
  rw [List.getD_eq_getElem?_getD, List.getD_eq_getElem?_getD, List.getElem?_set_ne h]

/-- The row picked out of a grid after `set` at that row, in range. -/
theorem getD_set_self_of_lt {α : Type} (l : List α) (i : ℕ) (a d : α)
    (h : i < l.length) : (l.set i a).getD i d = a := by
  rw [List.getD_eq_getElem?_getD, List.getElem?_set_self h, Option.getD_some]

/-- `getD` past the end of a list yields the default. -/
theorem getD_of_length_le {α : Type} (l : List α) (i : ℕ) (d : α)
    (h : l.length ≤ i) : l.getD i d = d := by
  rw [List.getD_eq_getElem?_getD, List.getElem?_eq_none h, Option.getD_none]

/-- A cell write changes no other cell. -/
theorem cellGet_cellSet_ne (g : Grid) (y x y' x' : ℕ) (c : Char)
    (hne : ¬(y = y' ∧ x = x')) :
    cellGet (cellSet g y' x' c) y x = cellGet g y x := by
  by_cases hy : y = y'
  · subst hy
    have hx : x' ≠ x := fun hxx => hne ⟨rfl, hxx.symm⟩
    by_cases hylen : y < g.length
    · have hrow : (cellSet g y x' c).getD y [] = (g.getD y []).set x' c :=
        getD_set_self_of_lt g y _ [] hylen
      unfold cellGet
      rw [hrow, getD_set_ne _ x' x _ _ hx]
    · have hrow : (cellSet g y x' c).getD y [] = [] :=
        getD_of_length_le _ y [] (by simpa [cellSet] using Nat.le_of_not_lt hylen)
      have hrow' : g.getD y [] = [] := getD_of_length_le g y [] (Nat.le_of_not_lt hylen)
      unfold cellGet
      rw [hrow, hrow']
  · have hy' : y' ≠ y := fun hh => hy hh.symm
    unfold cellGet cellSet
    rw [getD_set_ne g y' y _ [] hy']

/-- A guarded blank-only write: every cell either keeps its character or was
blank and now holds the written glyph. -/
theorem writeCell_cases (height : ℕ) (g : Grid) (yw : ℤ) (xw y x : ℕ) (c : Char) :
    cellGet (writeCell height g yw xw c) y x = cellGet g y x ∨
    (cellGet g y x = blankChar ∧ cellGet (writeCell height g yw xw c) y x = c) := by
  unfold writeCell
  by_cases hguard : 0 ≤ yw ∧ yw < (height : ℤ)
  · rw [if_pos hguard]
    by_cases hblank : cellGet g yw.toNat xw = blankChar
    · rw [if_pos hblank]
      by_cases hyx : y = yw.toNat ∧ x = xw
      · obtain ⟨rfl, rfl⟩ := hyx
        by_cases hy : yw.toNat < g.length
        · by_cases hx : x < (g.getD yw.toNat []).length
          · right
            refine ⟨hblank, ?_⟩
            unfold cellGet
            rw [show (cellSet g yw.toNat x c).getD yw.toNat [] =
                (g.getD yw.toNat []).set x c from getD_set_self_of_lt g yw.toNat _ [] hy]
            exact getD_set_self_of_lt _ x c blankChar hx
          · left
            unfold cellGet
            rw [show (cellSet g yw.toNat x c).getD yw.toNat [] =
                (g.getD yw.toNat []).set x c from getD_set_self_of_lt g yw.toNat _ [] hy]
            rw [getD_of_length_le _ x blankChar (by simpa using Nat.le_of_not_lt hx),
              getD_of_length_le _ x blankChar (Nat.le_of_not_lt hx)]
        · left
          unfold cellGet
          rw [show (cellSet g yw.toNat x c).getD yw.toNat [] = [] from
              getD_of_length_le _ yw.toNat [] (by simpa [cellSet] using Nat.le_of_not_lt hy),
            show g.getD yw.toNat [] = [] from
              getD_of_length_le g yw.toNat [] (Nat.le_of_not_lt hy)]
      · left
        exact cellGet_cellSet_ne g y x yw.toNat xw c hyx
    · rw [if_neg hblank]
      left
      rfl
  · rw [if_neg hguard]
    left
    rfl

/-- Along the inner plotting loop, every cell either keeps its previous
character or was blank and now holds the dataset's glyph. -/
theorem plotLoop_cases (data : List ℚ) (c : Char) (gmin vr : ℚ) (w h : ℕ)
    (xs : List ℕ) : ∀ (g : Grid) (y x : ℕ),
    cellGet (plotLoop data c gmin vr w h g xs) y x = cellGet g y x ∨
    (cellGet g y x = blankChar ∧
      cellGet (plotLoop data c gmin vr w h g xs) y x = c) := by
  induction xs with
  | nil =>
    intro g y x
    left
    rfl
  | cons x0 xs ih =>
    intro g y x
    rw [plotLoop]
    split
    · left; rfl
    · have hstep := writeCell_cases h g
        (plotY gmin vr h (data.getD (sampleIdx data.length w x0) 0)) x0 y x c
      set g' := writeCell h g
        (plotY gmin vr h (data.getD (sampleIdx data.length w x0) 0)) x0 c with hg'
      rcases ih g' y x with hkeep | ⟨hb', hc'⟩
      · rw [hkeep]
        exact hstep
      · rcases hstep with hkeep2 | ⟨hb, _⟩
        · right
          exact ⟨hkeep2 ▸ hb', hc'⟩
        · right
          exact ⟨hb, hc'⟩

/-- C5: the plotting pass writes a grid cell only if it is blank: a cell that
is non-blank is never changed by plotting any further dataset (first writer
wins, stated for the whole multi-dataset pass `plotAll`), and plotting one
dataset can change a cell only from blank to that dataset's own glyph. -/
theorem first_writer_wins :
    (∀ (g : Grid) (i : ℕ) (datasets : List (List ℚ)) (gmin vr : ℚ) (w h y x : ℕ),
      cellGet g y x ≠ blankChar →
      cellGet (plotAll g i datasets gmin vr w h) y x = cellGet g y x) ∧
    (∀ (g : Grid) (c : Char) (data : List ℚ) (gmin vr : ℚ) (w h y x : ℕ),
      cellGet (plotOne g c data gmin vr w h) y x = cellGet g y x ∨
      (cellGet g y x = blankChar ∧
        cellGet (plotOne g c data gmin vr w h) y x = c)) := by
  have hone : ∀ (g : Grid) (c : Char) (data : List ℚ) (gmin vr : ℚ) (w h y x : ℕ),
      cellGet (plotOne g c data gmin vr w h) y x = cellGet g y x ∨
      (cellGet g y x = blankChar ∧
        cellGet (plotOne g c data gmin vr w h) y x = c) := by
    intro g c data gmin vr w h y x
    exact plotLoop_cases data c gmin vr w h (List.range (min w data.length)) g y x
  refine ⟨?_, hone⟩
  intro g i datasets
  induction datasets generalizing g i with
  | nil =>
    intro gmin vr w h y x _
    rfl
  | cons d ds ih =>
    intro gmin vr w h y x hnb
    rw [plotAll]
    set g' := plotOne g (symbols.getD (i % symbols.length) blankChar) d gmin vr w h with hg'
    have hstep : cellGet g' y x = cellGet g y x := by
      rcases hone g (symbols.getD (i % symbols.length) blankChar) d gmin vr w h y x with
        hk | ⟨hb, _⟩
      · exact hk
      · exact absurd hb hnb
    have := ih g' (i + 1) gmin vr w h y x (hstep ▸ hnb)
    rw [this, hstep]

/-- Witness for C5: a non-blank 1×1 grid cell survives a plotting pass that
targets it. -/
theorem first_writer_wins_witness :
    cellGet (plotAll [['█']] 0 [[(5 : ℚ)]] 0 1 1 1) 0 0 = cellGet [['█']] 0 0 :=
  first_writer_wins.1 [['█']] 0 [[(5 : ℚ)]] 0 1 1 1 0 0 (by decide)

/-- The default-valued head of a non-empty list is a member. -/
theorem headD_mem {α : Type} (l : List α) (d : α) (h : l ≠ []) : l.headD d ∈ l := by
  cases l with
  | nil => exact absurd rfl h
  | cons a t => exact List.mem_cons_self a t

/-- The default-valued last entry of a non-empty list is a member. -/
theorem getLastD_mem {α : Type} (l : List α) (d : α) (h : l ≠ []) : l.getLastD d ∈ l := by
  induction l with
  | nil => exact absurd rfl h
  | cons a t ih =>
    cases t with
    | nil => exact List.mem_cons_self a []
    | cons b t2 =>
      have hstep : (a :: b :: t2).getLastD d = (b :: t2).getLastD d := by
        rw [List.getLastD_eq_getLast?, List.getLastD_eq_getLast?, List.getLast?_cons_cons]
      rw [hstep]
      exact List.mem_cons_of_mem a (ih (List.cons_ne_nil b t2))

/-- In a list sorted by a key, the head's key bounds every member's key. -/
theorem sorted_key_headD (k : String × Stats → ℚ) (l : List (String × Stats))
    (hs : l.Sorted (fun a b => k a ≤ k b)) :
    ∀ p ∈ l, k (l.headD defaultPair) ≤ k p := by
  cases l with
  | nil => intro p hp; cases hp
  | cons a t =>
    intro p hp
    rcases List.mem_cons.mp hp with rfl | hp
    · exact le_refl _
    · exact (List.sorted_cons.mp hs).1 p hp

/-- In a list sorted by a key, the last entry's key bounds every member's
key from above. -/
theorem sorted_key_getLastD (k : String × Stats → ℚ) (l : List (String × Stats))
    (hs : l.Sorted (fun a b => k a ≤ k b)) :
    ∀ p ∈ l, k p ≤ k (l.getLastD defaultPair) := by
  induction l with
  | nil => intro p hp; cases hp
  | cons a t ih =>
    intro p hp
    cases t with
    | nil =>
      rcases List.mem_cons.mp hp with rfl | hp2
      · exact le_refl _
      · cases hp2
    | cons b t2 =>
      have hstep : (a :: b :: t2).getLastD defaultPair = (b :: t2).getLastD defaultPair := by
        rw [List.getLastD_eq_getLast?, List.getLastD_eq_getLast?, List.getLast?_cons_cons]
      have hs' : (b :: t2).Sorted (fun a b => k a ≤ k b) := (List.sorted_cons.mp hs).2
      rw [hstep]
      rcases List.mem_cons.mp hp with rfl | hp2
      · exact le_trans ((List.sorted_cons.mp hs).1 b (List.mem_cons_self b t2))
          (ih hs' b (List.mem_cons_self b t2))
      · exact ih hs' p hp2

/-- C9: the insight generator reports as lowest/highest average a dataset of
minimal/maximal mean from the stable sort by mean (ties keeping input
order), likewise for lowest/highest peak by max; headroom is `400 - mean`
for every dataset; means `[10, 50, 30]` give lowest `("A", 10)` with
headroom `390`, highest `("B", 50)` with headroom `350`; on tied means the
lowest is the first and the highest the last in input order. -/
theorem insights_spec (stats_list : List Stats) (labels : List String)
    (hne : labels.zip stats_list ≠ []) :
    (∃ p ∈ labels.zip stats_list,
      (generate_comparison_insights stats_list labels).lowestAvg = (p.1, p.2.mean)) ∧
    (∀ p ∈ labels.zip stats_list,
      (generate_comparison_insights stats_list labels).lowestAvg.2 ≤ p.2.mean) ∧
    (∃ p ∈ labels.zip stats_list,
      (generate_comparison_insights stats_list labels).highestAvg = (p.1, p.2.mean)) ∧
    (∀ p ∈ labels.zip stats_list,
      p.2.mean ≤ (generate_comparison_insights stats_list labels).highestAvg.2) ∧
    (∃ p ∈ labels.zip stats_list,
      (generate_comparison_insights stats_list labels).lowestPeak = (p.1, p.2.max)) ∧
    (∀ p ∈ labels.zip stats_list,
      (generate_comparison_insights stats_list labels).lowestPeak.2 ≤ p.2.max) ∧
    (∃ p ∈ labels.zip stats_list,
      (generate_comparison_insights stats_list labels).highestPeak = (p.1, p.2.max)) ∧
    (∀ p ∈ labels.zip stats_list,
      p.2.max ≤ (generate_comparison_insights stats_list labels).highestPeak.2) ∧
    (generate_comparison_insights stats_list labels).headrooms =
      (labels.zip stats_list).map (fun p => (p.1, 400 - p.2.mean)) ∧
    generate_comparison_insights
        [⟨10, 10, 10, 10, 10, 10⟩, ⟨50, 50, 50, 50, 50, 50⟩, ⟨30, 30, 30, 30, 30, 30⟩]
        ["A", "B", "C"] =
      ⟨("A", 10), ("B", 50), ("A", 10), ("B", 50),
        [("A", 390), ("B", 350), ("C", 370)]⟩ ∧
    (generate_comparison_insights [⟨5, 5, 5, 5, 5, 5⟩, ⟨5, 5, 5, 5, 5, 5⟩]
      ["A", "B"]).lowestAvg = ("A", 5) ∧
    (generate_comparison_insights [⟨5, 5, 5, 5, 5, 5⟩, ⟨5, 5, 5, 5, 5, 5⟩]
      ["A", "B"]).highestAvg = ("B", 5) := by
  haveI htot : IsTotal (String × Stats) (fun a b => a.2.mean ≤ b.2.mean) :=
    ⟨fun a b => le_total a.2.mean b.2.mean⟩
  haveI htr : IsTrans (String × Stats) (fun a b => a.2.mean ≤ b.2.mean) :=
    ⟨fun a b c => le_trans⟩
  haveI htot2 : IsTotal (String × Stats) (fun a b => a.2.max ≤ b.2.max) :=
    ⟨fun a b => le_total a.2.max b.2.max⟩
  haveI htr2 : IsTrans (String × Stats) (fun a b => a.2.max ≤ b.2.max) :=
    ⟨fun a b c => le_trans⟩
  have hsort1 := List.sorted_insertionSort (fun a b : String × Stats => a.2.mean ≤ b.2.mean)
    (labels.zip stats_list)
  have hperm1 := List.perm_insertionSort (fun a b : String × Stats => a.2.mean ≤ b.2.mean)
    (labels.zip stats_list)
  have hsort2 := List.sorted_insertionSort (fun a b : String × Stats => a.2.max ≤ b.2.max)
    (labels.zip stats_list)
  have hperm2 := List.perm_insertionSort (fun a b : String × Stats => a.2.max ≤ b.2.max)
    (labels.zip stats_list)
  have hne1 : (labels.zip stats_list).insertionSort
      (fun a b => a.2.mean ≤ b.2.mean) ≠ [] := by
    intro hnil
    have hlen := hperm1.length_eq
    rw [hnil] at hlen
    exact hne (List.length_eq_zero.mp hlen.symm)
  have hne2 : (labels.zip stats_list).insertionSort
      (fun a b => a.2.max ≤ b.2.max) ≠ [] := by
    intro hnil
    have hlen := hperm2.length_eq
    rw [hnil] at hlen
    exact hne (List.length_eq_zero.mp hlen.symm)
  refine ⟨?_, ?_, ?_, ?_, ?_, ?_, ?_, ?_, rfl, ?_, ?_, ?_⟩
  · exact ⟨_, hperm1.subset (headD_mem _ defaultPair hne1), rfl⟩
  · intro p hp
    exact sorted_key_headD (fun q => q.2.mean) _ hsort1 p (hperm1.mem_iff.mpr hp)
  · exact ⟨_, hperm1.subset (getLastD_mem _ defaultPair hne1), rfl⟩
  · intro p hp
    exact sorted_key_getLastD (fun q => q.2.mean) _ hsort1 p (hperm1.mem_iff.mpr hp)
  · exact ⟨_, hperm2.subset (headD_mem _ defaultPair hne2), rfl⟩
  · intro p hp
    exact sorted_key_headD (fun q => q.2.max) _ hsort2 p (hperm2.mem_iff.mpr hp)
  · exact ⟨_, hperm2.subset (getLastD_mem _ defaultPair hne2), rfl⟩
  · intro p hp
    exact sorted_key_getLastD (fun q => q.2.max) _ hsort2 p (hperm2.mem_iff.mpr hp)
  · simp +decide [generate_comparison_insights, List.insertionSort, List.orderedInsert,
      defaultPair]
    norm_num
  · simp +decide [generate_comparison_insights, List.insertionSort, List.orderedInsert,
      defaultPair]
  · simp +decide [generate_comparison_insights, List.insertionSort, List.orderedInsert,
      defaultPair]

/-- Witness for C9: the spec's example, means `[10, 50, 30]`, headrooms
`390`/`350`/`370`. -/
theorem insights_spec_witness :
    generate_comparison_insights
        [⟨10, 10, 10, 10, 10, 10⟩, ⟨50, 50, 50, 50, 50, 50⟩, ⟨30, 30, 30, 30, 30, 30⟩]
        ["A", "B", "C"] =
      ⟨("A", 10), ("B", 50), ("A", 10), ("B", 50),
        [("A", 390), ("B", 350), ("C", 370)]⟩ :=
  (insights_spec
    [⟨10, 10, 10, 10, 10, 10⟩, ⟨50, 50, 50, 50, 50, 50⟩, ⟨30, 30, 30, 30, 30, 30⟩]
    ["A", "B", "C"] (by decide)).2.2.2.2.2.2.2.2.2.1

end VisualizeCpu
